import Mathlib

/-!
Verification of the `pinsky-three/automation` desktop-automation loop.

The Rust sources under `src/` are shallowly embedded below:

* `serde_json::Value` is modelled by the inductive `Json` (numbers are
  modelled by `Int`; the program only ever reads integers out of JSON
  numbers, via `as_i64`).
* `serde_json::from_str` is modelled by the fueled recursive-descent
  parser `parseJson` over the JSON grammar (integer numbers).
* The OS input-injection library (`enigo`) is modelled by an oracle
  `inj : InjCall → Option String`: `none` means the call succeeded,
  `some e` means the OS refused the synthetic input with error `e`.
  A Rust `.unwrap()` on a failed call is a panic, modelled by
  `Except.error` in the functions that perform it.
* `SystemTime::now()` is modelled by an explicit `now : Int` argument.
* Rust `HashMap<String, String>` is modelled by an association list with
  insert-replaces-existing-key semantics (`insertA`).
-/

set_option maxRecDepth 10000

/-- The opening-brace character, written via its code point. -/
def lbrace : Char := Char.ofNat 123

/-- The closing-brace character, written via its code point. -/
def rbrace : Char := Char.ofNat 125

/-- Model of `serde_json::Value`. JSON numbers are restricted to the
integers, which is the only way this program ever reads them. -/
inductive Json where
  | null : Json
  | bool (b : Bool) : Json
  | num (n : Int) : Json
  | str (s : String) : Json
  | arr (elems : List Json) : Json
  | obj (fields : List (String × Json)) : Json
deriving Repr

/-- First binding of a key in an association list (Rust `Map::get` /
`HashMap::get`; insertion keeps keys unique, so "first" is "the"). -/
def lookupA {α : Type} : List (String × α) → String → Option α
  | [], _ => none
  | (k, v) :: rest, key => if k = key then some v else lookupA rest key

/-- Rust `HashMap::insert`: replace the value of an existing key,
otherwise append the new binding. -/
def insertA {α : Type} : List (String × α) → String → α → List (String × α)
  | [], k, v => [(k, v)]
  | (k', v') :: rest, k, v =>
    if k' = k then (k, v) :: rest else (k', v') :: insertA rest k v

/-- Model of `Value::get` on an object (None on non-objects). -/
def Json.getKey? : Json → String → Option Json
  | Json.obj fields, key => lookupA fields key
  | _, _ => none

/-- Model of `Value::index` with a string index: `Null` for a missing
key or a non-object receiver (`value["key"]` in the Rust sources). -/
def Json.idx (j : Json) (key : String) : Json :=
  (j.getKey? key).getD Json.null

/-- Model of `Value::as_str`. -/
def Json.as_str : Json → Option String
  | Json.str s => some s
  | _ => none

/-- Model of `Value::as_i64`. -/
def Json.as_i64 : Json → Option Int
  | Json.num n => some n
  | _ => none

/-- Model of `Value::as_array`. -/
def Json.as_array : Json → Option (List Json)
  | Json.arr elems => some elems
  | _ => none

/-- Model of `Value::as_object`. -/
def Json.as_object : Json → Option (List (String × Json))
  | Json.obj fields => some fields
  | _ => none

/-- ASCII lowercasing; model of Rust `str::to_lowercase` on the ASCII
strings this program compares. -/
def strLower (s : String) : String :=
  String.mk (s.data.map Char.toLower)

/-- Model of Rust `str::contains(&str)`: substring containment. -/
def strContains (hay needle : String) : Bool :=
  decide (needle.data <:+: hay.data)

/-- Model of `str::matches(c).count()`: occurrences of a character. -/
def countChar (s : String) (c : Char) : Nat :=
  (s.data.filter (fun d => d = c)).length

/-- Model of `f.split(":").next()`: the segment before the first colon
(the whole string when there is no colon). -/
def splitColonHead (s : String) : String :=
  String.mk (s.data.takeWhile (fun c => c ≠ ':'))

/-- JSON whitespace skipping for the `serde_json::from_str` model. -/
def skipWs : List Char → List Char
  | [] => []
  | c :: cs =>
    if c = ' ' ∨ c = '\n' ∨ c = '\t' ∨ c = '\r' then skipWs cs else c :: cs

/-- Literal matching: consume `lit` from the front of the input. -/
def eatLit : List Char → List Char → Option (List Char)
  | [], cs => some cs
  | _, [] => none
  | l :: ls, c :: cs => if c = l then eatLit ls cs else none

/-- Decoded value of a backslash escape inside a JSON string literal
(by code point: quote, backslash, slash, and the control characters
`b`, `t`, `n`, `f`, `r`). -/
def escChar (e : Char) : Option Char :=
  if e = '"' ∨ e = '\\' ∨ e = '/' then some e
  else if e = 'b' then some (Char.ofNat 8)
  else if e = 't' then some (Char.ofNat 9)
  else if e = 'n' then some (Char.ofNat 10)
  else if e = 'f' then some (Char.ofNat 12)
  else if e = 'r' then some (Char.ofNat 13)
  else none

/-- Parse the remainder of a JSON string literal (after the opening
quote), returning the decoded characters and the rest of the input. -/
def parseStrRest : Nat → List Char → Option (List Char × List Char)
  | 0, _ => none
  | _, [] => none
  | fuel + 1, c :: cs =>
    if c = '"' then some ([], cs)
    else if c = '\\' then
      match cs with
      | [] => none
      | e :: cs' =>
        match escChar e with
        | none => none
        | some ec =>
          match parseStrRest fuel cs' with
          | none => none
          | some (out, rest) => some (ec :: out, rest)
    else
      match parseStrRest fuel cs with
      | none => none
      | some (out, rest) => some (c :: out, rest)

/-- Parse a run of decimal digits into a natural number. -/
def parseDigits : Nat → List Char → Nat → Option (Nat × List Char)
  | 0, _, _ => none
  | _, [], acc => some (acc, [])
  | fuel + 1, c :: cs, acc =>
    if c.isDigit then parseDigits fuel cs (acc * 10 + (c.toNat - 48))
    else some (acc, c :: cs)

/-- Parse a JSON number (integer form: optional minus and digits). -/
def parseNum : Nat → List Char → Option (Json × List Char)
  | fuel, cs =>
    let (neg, cs') : Bool × List Char :=
      match cs with
      | '-' :: rest => (true, rest)
      | _ => (false, cs)
    match cs' with
    | c :: _ =>
      if c.isDigit then
        match parseDigits fuel cs' 0 with
        | none => none
        | some (n, rest) =>
          some (Json.num (if neg then -(n : Int) else (n : Int)), rest)
      else none
    | [] => none

mutual

/-- Fueled JSON value parser (model of the `serde_json` grammar with
integer numbers). -/
def parseValueF : Nat → List Char → Option (Json × List Char)
  | 0, _ => none
  | fuel + 1, cs =>
    match skipWs cs with
    | [] => none
    | c :: rest =>
      if c = 'n' then
        match eatLit ['u', 'l', 'l'] rest with
        | some rest' => some (Json.null, rest')
        | none => none
      else if c = 't' then
        match eatLit ['r', 'u', 'e'] rest with
        | some rest' => some (Json.bool true, rest')
        | none => none
      else if c = 'f' then
        match eatLit ['a', 'l', 's', 'e'] rest with
        | some rest' => some (Json.bool false, rest')
        | none => none
      else if c = '"' then
        match parseStrRest (fuel + 1) rest with
        | some (out, rest') => some (Json.str (String.mk out), rest')
        | none => none
      else if c = lbrace then parseMembersF fuel rest true []
      else if c = '[' then parseElemsF fuel rest true []
      else if c = '-' ∨ c.isDigit then parseNum (fuel + 1) (c :: rest)
      else none

/-- Fueled parser for object members after the opening brace. `first`
marks whether no member has been consumed yet. -/
def parseMembersF (fuel : Nat) (cs : List Char) (first : Bool)
    (acc : List (String × Json)) : Option (Json × List Char) :=
  match fuel with
  | 0 => none
  | fuel + 1 =>
    match skipWs cs with
    | [] => none
    | c :: rest =>
      if c = rbrace ∧ first then some (Json.obj acc.reverse, rest)
      else
        let cs1 : List Char :=
          if first then c :: rest
          else if c = ',' then rest else []
        match skipWs cs1 with
        | '"' :: rest1 =>
          match parseStrRest (fuel + 1) rest1 with
          | none => none
          | some (key, rest2) =>
            match skipWs rest2 with
            | ':' :: rest3 =>
              match parseValueF fuel rest3 with
              | none => none
              | some (v, rest4) =>
                match skipWs rest4 with
                | d :: rest5 =>
                  if d = rbrace then
                    some (Json.obj (acc.reverse ++ [(String.mk key, v)]), rest5)
                  else if d = ',' then
                    parseMembersF fuel (',' :: rest5) false
                      (⟨String.mk key, v⟩ :: acc)
                  else none
                | [] => none
            | _ => none
        | _ => none

/-- Fueled parser for array elements after the opening bracket. -/
def parseElemsF (fuel : Nat) (cs : List Char) (first : Bool)
    (acc : List Json) : Option (Json × List Char) :=
  match fuel with
  | 0 => none
  | fuel + 1 =>
    match skipWs cs with
    | [] => none
    | c :: rest =>
      if c = ']' ∧ first then some (Json.arr acc.reverse, rest)
      else
        let cs1 : List Char :=
          if first then c :: rest
          else if c = ',' then rest else []
        match parseValueF fuel cs1 with
        | none => none
        | some (v, rest1) =>
          match skipWs rest1 with
          | d :: rest2 =>
            if d = ']' then some (Json.arr (acc.reverse ++ [v]), rest2)
            else if d = ',' then parseElemsF fuel (',' :: rest2) false (v :: acc)
            else none
          | [] => none

end

/-- Model of `serde_json::from_str::<Value>`: parse one JSON value and
require only whitespace to follow. -/
def parseJson (s : String) : Option Json :=
  match parseValueF (2 * s.length + 4) s.data with
  | none => none
  | some (j, rest) =>
    match skipWs rest with
    | [] => some j
    | _ => none

/-- Model of `serde_json::from_str::<Vec<Value>>`: the input must parse
to a JSON array. -/
def parseJsonArray (s : String) : Option (List Json) :=
  match parseJson s with
  | some (Json.arr elems) => some elems
  | _ => none

/-! ## `src/models/action_result.rs` -/

/-- Embedding of `ActionResult` from `src/models/action_result.rs`. -/
structure ActionResult where
  action_type : String
  success : Bool
  timestamp : Int
  error_message : Option String
  retry_count : Nat
deriving Repr, DecidableEq

/-- `ActionResult::new` (`src/models/action_result.rs:14`): fresh,
unsuccessful result stamped with the current time. -/
def ActionResult.new (action_type : String) (now : Int) : ActionResult :=
  { action_type := action_type
    success := false
    timestamp := now
    error_message := none
    retry_count := 0 }

/-- `ActionResult::mark_success` (`src/models/action_result.rs:27`):
sets `success` and refreshes the timestamp; `error_message` is left as
it is. -/
def ActionResult.mark_success (r : ActionResult) (now : Int) : ActionResult :=
  { r with success := true, timestamp := now }

/-- `ActionResult::mark_error` (`src/models/action_result.rs:35`). -/
def ActionResult.mark_error (r : ActionResult) (error : String) (now : Int) :
    ActionResult :=
  { r with success := false, error_message := some error, timestamp := now }

/-- `ActionResult::increment_retry` (`src/models/action_result.rs:44`). -/
def ActionResult.increment_retry (r : ActionResult) (now : Int) : ActionResult :=
  { r with retry_count := r.retry_count + 1, timestamp := now }

/-! ## `src/models.rs` (the duplicate model types) -/

namespace ModelsRs

/-- Embedding of the duplicate `ActionResult` from `src/models.rs:55`
(`timestamp` is a `u64` there, modelled as `Int` like its sibling). -/
structure ActionResult where
  action_type : String
  success : Bool
  timestamp : Int
  error_message : Option String
  retry_count : Nat
deriving Repr, DecidableEq

/-- `ActionResult::new` (`src/models.rs:64`). -/
def ActionResult.new (action_type : String) (now : Int) : ActionResult :=
  { action_type := action_type
    success := false
    timestamp := now
    error_message := none
    retry_count := 0 }

/-- `ActionResult::mark_success` (`src/models.rs:77`): sets `success`
and clears `error_message`; the timestamp is not touched. -/
def ActionResult.mark_success (r : ActionResult) : ActionResult :=
  { r with success := true, error_message := none }

/-- `ActionResult::mark_error` (`src/models.rs:82`). -/
def ActionResult.mark_error (r : ActionResult) (message : String) : ActionResult :=
  { r with success := false, error_message := some message }

/-- `ActionResult::increment_retry` (`src/models.rs:87`). -/
def ActionResult.increment_retry (r : ActionResult) : ActionResult :=
  { r with retry_count := r.retry_count + 1 }

end ModelsRs

/-! ## `src/models/task_state.rs` -/

/-- Embedding of `TaskState` from `src/models/task_state.rs:8`.
`memory` (a Rust `HashMap<String, String>`) is an association list with
`insertA` semantics. -/
structure TaskState where
  status : String
  attempts : Nat
  last_action : String
  success_criteria : List String
  memory : List (String × String)
  feedback : List String
  start_time : Int
  last_update : Int
  action_results : List ActionResult
  analysis : Json
deriving Repr

/-- `TaskState::new` (`src/models/task_state.rs:22`). -/
def TaskState.new (now : Int) : TaskState :=
  { status := "in_progress"
    attempts := 0
    last_action := ""
    success_criteria :=
      ["Task completed", "Information found", "Research complete", "Task done"]
    memory := []
    feedback := []
    start_time := now
    last_update := now
    action_results := []
    analysis := Json.obj [] }

/-- Helper for `TaskState::update`: the `last_action` extraction from
the action-plan JSON (`src/models/task_state.rs:56`). -/
def extractLastAction (actions : String) (old : String) : String :=
  match parseJsonArray actions with
  | none => old
  | some actions_json =>
    match actions_json.getLast? with
    | none => old
    | some last_action =>
      match (last_action.idx "action").as_str with
      | some action_type => action_type
      | none => old

/-- Helper for `TaskState::update`: folding one challenge string into
the feedback list (`src/models/task_state.rs:78`). -/
def pushChallenges (feedback : List String) (challenges : List Json) :
    List String :=
  feedback ++ challenges.filterMap Json.as_str

/-- `TaskState::update` (`src/models/task_state.rs:48`). The result is
`Except.error msg` when the Rust code would panic: `state["window_title"]`
indexes a `serde_json::Map`, which panics when the key is absent. -/
def TaskState.update (ts : TaskState) (now : Int) (analysis actions : String) :
    Except String TaskState :=
  let ts := { ts with attempts := ts.attempts + 1, last_update := now }
  let ts := { ts with last_action := extractLastAction actions ts.last_action }
  match parseJson analysis with
  | none => Except.ok ts
  | some analysis_json =>
    let ts := { ts with analysis := analysis_json }
    let ts :=
      match (analysis_json.idx "context").as_str with
      | some context =>
        { ts with memory := insertA ts.memory "last_context" context }
      | none => ts
    match (analysis_json.idx "state").as_object with
    | some state =>
      match lookupA state "window_title" with
      | none => Except.error "no entry found for key"
      | some wt =>
        let ts :=
          match wt.as_str with
          | some window_title =>
            { ts with memory := insertA ts.memory "last_window" window_title }
          | none => ts
        Except.ok
          (match (analysis_json.idx "challenges").as_array with
           | some challenges =>
             { ts with feedback := pushChallenges ts.feedback challenges }
           | none => ts)
    | none =>
      Except.ok
        (match (analysis_json.idx "challenges").as_array with
         | some challenges =>
           { ts with feedback := pushChallenges ts.feedback challenges }
         | none => ts)

/-- `TaskState::should_pause` (`src/models/task_state.rs:88`). -/
def TaskState.should_pause (ts : TaskState) : Bool :=
  if ts.attempts > 10 then true
  else if ts.attempts > 3 then
    let last_actions := (ts.feedback.reverse.take 3).map splitColonHead
    match last_actions with
    | [a, b, c] => a = b ∧ b = c
    | _ => false
  else false

/-- `TaskState::set_task_done` (`src/models/task_state.rs:145`). -/
def TaskState.set_task_done (ts : TaskState) (now : Int) : TaskState :=
  { ts with status := "task_done", last_update := now }

/-- `TaskState::add_action_result` (`src/models/task_state.rs:153`):
push the result, then call `update("", "")`. -/
def TaskState.add_action_result (ts : TaskState) (result : ActionResult)
    (now : Int) : Except String TaskState :=
  TaskState.update { ts with action_results := ts.action_results ++ [result] }
    now "" ""

/-! ## The input-injection layer (external `enigo` library)

Each primitive `enigo` operation the sources invoke is one `InjCall`.
An oracle `inj : InjCall → Option String` decides its outcome: `none`
is success, `some e` is an OS-level failure with message `e`. -/

/-- One call into the input-injection layer. -/
inductive InjCall where
  | key (k : String) (d : String)
  | button (b : String)
  | moveMouse (x y : Int)
  | text (s : String)
deriving Repr, DecidableEq

/-- A Rust `.unwrap()` on an injection call: `Except.error` is the
panic carrying the underlying error message. -/
def unwrapInj (inj : InjCall → Option String) (c : InjCall) :
    Except String Unit :=
  match inj c with
  | none => Except.ok ()
  | some e => Except.error e

/-- An injection call whose `Result` the source discards (`let _ =`):
never a panic, no observable effect on the model state. -/
def ignoreInj (_inj : InjCall → Option String) (_c : InjCall) : Unit := ()

/-! ## `src/actuators/mouse.rs` -/

/-- `Mouse::click` (`src/actuators/mouse.rs:22`). Here `Except.error`
models the Rust `Err` value (a recoverable error, not a panic). -/
def Mouse.click (inj : InjCall → Option String) (button_name : String) :
    Except String Unit :=
  let bl := strLower button_name
  if bl = "left" ∨ bl = "right" ∨ bl = "middle" then
    match inj (InjCall.button bl) with
    | none => Except.ok ()
    | some e => Except.error e
  else Except.error ("Unknown mouse button: " ++ button_name)

/-! ## `src/actions/executor.rs` -/

/-- Modifier-key name recognized by the `key_combination` press and
release loops of `src/actions/executor.rs:96` (other strings fall
through the `_ => {}` arm). -/
def modKeyOf (k : String) : Option String :=
  if k = "control" ∨ k = "ctrl" then some "control"
  else if k = "alt" then some "alt"
  else if k = "shift" then some "shift"
  else if k = "meta" ∨ k = "super" ∨ k = "windows" then some "meta"
  else none

/-- The press (or release) loop over `key_names` in `key_combination`:
every recognized modifier is dispatched and unwrapped. -/
def injModLoop (inj : InjCall → Option String) (d : String) :
    List String → Except String Unit
  | [] => Except.ok ()
  | k :: rest => do
    match modKeyOf k with
    | some m => unwrapInj inj (InjCall.key m d)
    | none => Except.ok ()
    injModLoop inj d rest

/-- The single-character letters the `key_combination` arm can type
(`src/actions/executor.rs:119`). -/
def comboLetters : List String :=
  ["t", "w", "r", "l", "a", "c", "v", "x", "z"]

/-- The `match action["action"].as_str()` block of `execute_action`
(`src/actions/executor.rs:13-188`): dispatch one action through the
injection layer against the `TaskState` of `src/models/task_state.rs`
(the claims pair these two files). Every injection call is
`.unwrap()`ed, so `Except.error` here is a panic; only the `task_done`
arm touches the state. -/
def execArm (inj : InjCall → Option String) (now : Int)
    (action : Json) (task_state : TaskState) :
    Except String (ActionResult × TaskState) :=
  let result := ActionResult.new (((action.idx "action").as_str).getD "unknown") now
  let aty := (action.idx "action").as_str
  if aty = some "window_focus" then do
      match (action.idx "title").as_str, (action.idx "class").as_str,
          (action.idx "method").as_str with
      | some _title, some _class, some method => do
        if method = "alt_tab" then
          unwrapInj inj (InjCall.key "alt" "press")
          unwrapInj inj (InjCall.key "tab" "click")
          unwrapInj inj (InjCall.key "alt" "release")
        else if method = "super_tab" then
          unwrapInj inj (InjCall.key "meta" "press")
          unwrapInj inj (InjCall.key "tab" "click")
          unwrapInj inj (InjCall.key "meta" "release")
        else pure ()
        pure (result.mark_success now, task_state)
      | _, _, _ =>
        pure (result.mark_error "Missing parameters for window_focus action" now,
          task_state)
    else if aty = some "mouse_move" then do
      match (action.idx "x").as_i64, (action.idx "y").as_i64 with
      | some x, some y => do
        unwrapInj inj (InjCall.moveMouse x y)
        pure (result.mark_success now, task_state)
      | _, _ =>
        pure (result.mark_error "Missing coordinates for mouse_move action" now,
          task_state)
    else if aty = some "mouse_click" then do
      match (action.idx "button").as_str with
      | some button => do
        if button = "left" ∨ button = "right" ∨ button = "middle" then
          unwrapInj inj (InjCall.button button)
        else pure ()
        pure (result.mark_success now, task_state)
      | none =>
        pure (result.mark_error "Missing button for mouse_click action" now,
          task_state)
    else if aty = some "key_press" then do
      match (action.idx "key").as_str with
      | some key => do
        let kl := strLower key
        if kl = "return" ∨ kl = "enter" then
          unwrapInj inj (InjCall.key "return" "click")
        else if kl = "tab" then unwrapInj inj (InjCall.key "tab" "click")
        else if kl = "escape" then unwrapInj inj (InjCall.key "escape" "click")
        else pure ()
        pure (result.mark_success now, task_state)
      | none =>
        pure (result.mark_error "Missing key for key_press action" now, task_state)
    else if aty = some "key_combination" then do
      match (action.idx "keys").as_array with
      | some keys => do
        let key_names := (keys.filterMap Json.as_str).map strLower
        injModLoop inj "press" key_names
        match key_names.getLast? with
        | some last_key =>
          if last_key ∈ comboLetters then unwrapInj inj (InjCall.text last_key)
          else pure ()
        | none => pure ()
        injModLoop inj "release" key_names
        pure (result.mark_success now, task_state)
      | none =>
        pure (result.mark_error "Missing keys for key_combination action" now,
          task_state)
    else if aty = some "text_input" then do
      match (action.idx "text").as_str with
      | some text => do
        unwrapInj inj (InjCall.text text)
        pure (result.mark_success now, task_state)
      | none =>
        pure (result.mark_error "Missing text for text_input action" now,
          task_state)
    else if aty = some "wait" then
      match (action.idx "ms").as_i64 with
      | some _ms => pure (result.mark_success now, task_state)
      | none =>
        pure (result.mark_error "Missing ms for wait action" now, task_state)
    else if aty = some "task_done" then
      match (action.idx "reason").as_str with
      | some _reason =>
        pure (result.mark_success now, task_state.set_task_done now)
      | none =>
        pure (result.mark_error "Missing reason for task_done action" now,
          task_state)
    else
      pure (result.mark_error "Unknown action type" now, task_state)

/-- `execute_action` (`src/actions/executor.rs:6`): dispatch the action
through `execArm`, then call `task_state.add_action_result(result)`
(`src/actions/executor.rs:191`). -/
def execute_action (inj : InjCall → Option String) (now : Int)
    (action : Json) (task_state : TaskState) :
    Except String (ActionResult × TaskState) := do
  let (result, task_state) ← execArm inj now action task_state
  let task_state ← task_state.add_action_result result now
  return (result, task_state)

/-! ## `src/actions/verifier.rs` -/

/-- `verify_action` (`src/actions/verifier.rs:3`). `Except.error` is
the panic of `state["active_window"]`: indexing a `serde_json::Map`
panics (`no entry found for key`) when the key is absent. -/
def verify_action (now : Int) (action : Json) (task_state : TaskState) :
    Except String ActionResult :=
  let result := ActionResult.new (((action.idx "action").as_str).getD "unknown") now
  match (task_state.analysis.getKey? "state").bind Json.as_object with
  | none => Except.ok result
  | some state =>
    let aty := (action.idx "action").as_str
    if aty = some "window_focus" then
      let title := ((action.idx "title").as_str).getD ""
      match lookupA state "active_window" with
      | none => Except.error "no entry found for key"
      | some aw =>
        match aw.as_str with
        | some active_window =>
          if strContains (strLower active_window) (strLower title) then
            Except.ok (result.mark_success now)
          else
            Except.ok (result.mark_error
              ("Window focus failed. Expected: " ++ title ++ ", Got: "
                ++ active_window) now)
        | none =>
          Except.ok (result.mark_error "No active window information available" now)
    else if aty = some "mouse_move" ∨ aty = some "mouse_click"
        ∨ aty = some "key_press" ∨ aty = some "key_combination"
        ∨ aty = some "text_input" ∨ aty = some "wait"
        ∨ aty = some "task_done" then
      Except.ok (result.mark_success now)
    else
      Except.ok (result.mark_error "Unknown action type" now)

/-! ## `src/main.rs` (the iteration driver and its duplicate types) -/

namespace Main

/-- Embedding of `ActionResult` from `src/main.rs:50`. -/
structure ActionResult where
  action_type : String
  success : Bool
  timestamp : Int
  error_message : Option String
  retry_count : Nat
deriving Repr, DecidableEq

/-- `ActionResult::new` (`src/main.rs:59`). -/
def ActionResult.new (action_type : String) (now : Int) : ActionResult :=
  { action_type := action_type
    success := false
    timestamp := now
    error_message := none
    retry_count := 0 }

/-- The builder method `ActionResult::success` (`src/main.rs:72`),
renamed `success'` because `success` is the field projection. It only
sets the flag. -/
def ActionResult.success' (r : ActionResult) : ActionResult :=
  { r with success := true }

/-- `ActionResult::with_error` (`src/main.rs:77`): only sets the
message (the `success` flag is untouched). -/
def ActionResult.with_error (r : ActionResult) (error : String) : ActionResult :=
  { r with error_message := some error }

/-- `ActionResult::increment_retry` (`src/main.rs:82`). -/
def ActionResult.increment_retry (r : ActionResult) : ActionResult :=
  { r with retry_count := r.retry_count + 1 }

/-- Embedding of `TaskState` from `src/main.rs:36`. -/
structure TaskState where
  instruction : String
  status : String
  attempts : Nat
  last_action : String
  success_criteria : List String
  memory : List (String × String)
  feedback : List String
  start_time : Int
  last_update : Int
  action_results : List ActionResult
deriving Repr, DecidableEq

/-- `TaskState::new` (`src/main.rs:89`). -/
def TaskState.new (instruction : String) (now : Int) : TaskState :=
  { instruction := instruction
    status := "in_progress"
    attempts := 0
    last_action := ""
    success_criteria :=
      ["Task completed", "Information found", "Research complete", "Task done"]
    memory := []
    feedback := []
    start_time := now
    last_update := now
    action_results := [] }

/-- `TaskState::should_pause` (`src/main.rs:154`); textually the same
logic as `src/models/task_state.rs:88`. -/
def TaskState.should_pause (ts : TaskState) : Bool :=
  if ts.attempts > 10 then true
  else if ts.attempts > 3 then
    match (ts.feedback.reverse.take 3).map splitColonHead with
    | [a, b, c] => a = b ∧ b = c
    | _ => false
  else false

/-- The per-action-kind match block of `verify_action`
(`src/main.rs:478`), once `ui_elements` and the `state` object have
been extracted. `state["active_window"]` indexes a `serde_json::Map`
and panics (`Except.error`) when the key is absent. -/
def verifyArm (now : Int) (action : Json) (state : List (String × Json)) :
    Except String ActionResult :=
  let result := ActionResult.new (((action.idx "action").as_str).getD "unknown") now
  let aty := (action.idx "action").as_str
  if aty = some "window_focus" then
    match (action.idx "title").as_str with
    | some title =>
      match lookupA state "active_window" with
      | none => Except.error "no entry found for key"
      | some aw =>
        match aw.as_str with
        | some active_window =>
          if strContains (strLower active_window) (strLower title) then
            Except.ok result.success'
          else
            let msg := "Window focus failed. Expected: " ++ title
              ++ ", Got: " ++ active_window
            Except.ok { result with error_message := some msg }
        | none =>
          Except.ok { result with
            error_message := some "Could not determine active window" }
    | none =>
      Except.ok { result with
        error_message := some "Missing title or class in window_focus action" }
  else if aty = some "mouse_move" ∨ aty = some "mouse_click"
      ∨ aty = some "key_press" ∨ aty = some "key_combination"
      ∨ aty = some "text_input" ∨ aty = some "wait"
      ∨ aty = some "task_done" then
    Except.ok result.success'
  else
    let msg := "Unknown action type: " ++ aty.getD "unknown"
    Except.ok { result with error_message := some msg }

/-- `verify_action` (`src/main.rs:454`). Early returns (missing
`ui_elements` or `state`) do not push onto `action_results`; the match
arms (`verifyArm`) do. -/
def verify_action (now : Int) (action analysis_json : Json)
    (task_state : TaskState) : Except String (ActionResult × TaskState) :=
  let result := ActionResult.new (((action.idx "action").as_str).getD "unknown") now
  match (analysis_json.idx "ui_elements").as_array with
  | none =>
    Except.ok
      ({ result with error_message := some "No UI elements found in analysis" },
        task_state)
  | some _ui_elements =>
    match (analysis_json.idx "state").as_object with
    | none =>
      Except.ok
        ({ result with
            error_message := some "No state information found in analysis" },
          task_state)
    | some state =>
      match verifyArm now action state with
      | Except.error e => Except.error e
      | Except.ok r =>
        Except.ok (r, { task_state with
          action_results := task_state.action_results ++ [r] })

/-- Center of the `ui_elements` bounding box closest to `(x, y)`
(`src/main.rs:585`): squared Euclidean distance on box centers, strict
improvement keeps the first minimum. -/
def nearestElementCenter (elements : List Json) (x y : Int) :
    Option (Int × Int) :=
  (elements.foldl
    (fun (acc : Option ((Int × Int) × Int)) element =>
      match (element.idx "coords").as_array with
      | some coords =>
        if coords.length ≥ 4 then
          match (coords.getD 0 Json.null).as_i64, (coords.getD 1 Json.null).as_i64,
              (coords.getD 2 Json.null).as_i64, (coords.getD 3 Json.null).as_i64 with
          | some x1, some y1, some x2, some y2 =>
            let cx := (x1 + x2) / 2
            let cy := (y1 + y2) / 2
            let dist := (cx - x) ^ 2 + (cy - y) ^ 2
            match acc with
            | none => some ((cx, cy), dist)
            | some (best, bestDist) =>
              if dist < bestDist then some ((cx, cy), dist)
              else some (best, bestDist)
          | _, _, _, _ => acc
        else acc
      | none => acc)
    none).map Prod.fst

/-- `retry_action` (`src/main.rs:533`): verify, and on failure with
`retry_count < 3` increment the retry counter, apply the adjustment,
and verify again, returning the second verification's result. The
adjustment block (alternate focus method, nearest-element snapping,
extra wait) only performs injection calls whose `Result`s the source
discards with `let _ =`, so it cannot change the returned result or
the `TaskState`; the model records the snapped coordinates through
`nearestElementCenter` but applies no state change, exactly like the
source. -/
def retry_action (now : Int) (action analysis_json : Json)
    (task_state : TaskState) : Except String (ActionResult × TaskState) := do
  let (result, task_state) ← verify_action now action analysis_json task_state
  if result.success = false ∧ result.retry_count < 3 then do
    let _result := result.increment_retry
    let _adjusted :=
      match (action.idx "action").as_str with
      | some "mouse_move" | some "mouse_click" =>
        match (action.idx "x").as_i64, (action.idx "y").as_i64,
            (analysis_json.idx "ui_elements").as_array with
        | some x, some y, some elements => nearestElementCenter elements x y
        | _, _, _ => none
      | _ => none
    verify_action now action analysis_json task_state
  else
    return (result, task_state)

/-- The driver's post-action check (`src/main.rs:1502`): on a failed
result with `retry_count >= 3`, set the status to `paused`, sleep 5
seconds and break the action loop. Returns the new state, the sleep
duration in seconds (if any), and whether the loop breaks. -/
def handle_action_result (action_result : ActionResult) (ts : TaskState) :
    TaskState × Option Nat × Bool :=
  if action_result.success = false then
    if action_result.retry_count ≥ 3 then
      ({ ts with status := "paused" }, some 5, true)
    else (ts, none, false)
  else (ts, none, false)

/-- The canned error analysis object substituted when JSON repair fails
(`src/main.rs:1137`). -/
def cannedErrorAnalysis : Json :=
  Json.obj
    [("context", Json.str "error"),
     ("ui_elements", Json.arr []),
     ("state", Json.obj
       [("focused_element", Json.null),
        ("selected_text", Json.null),
        ("active_window", Json.str "unknown"),
        ("window_title", Json.str "unknown"),
        ("window_class", Json.str "unknown"),
        ("target_window", Json.null)]),
     ("challenges", Json.arr [Json.str "JSON parsing error, possible truncation"])]

/-- Outcome of the analysis-JSON validation and repair pass
(`src/main.rs:1102`). -/
inductive RepairOutcome where
  | parsed (j : Json) : RepairOutcome
  | repaired (j : Json) : RepairOutcome
  | fallback (j : Json) : RepairOutcome
  | panicOverflow : RepairOutcome
deriving Repr

/-- The analysis-JSON validation and repair pass (`src/main.rs:1102`):
on a parse failure, count braces and brackets and append the deficit of
closers, then re-parse; if that fails too, substitute
`cannedErrorAnalysis`. The subtractions `open_braces - close_braces`
and `open_brackets - close_brackets` are on `usize`: when a closer
count exceeds its opener count they overflow, which panics in a debug
build (`panicOverflow`). -/
def parseAnalysisWithRepair (clean_analysis : String) : RepairOutcome :=
  match parseJson clean_analysis with
  | some json => RepairOutcome.parsed json
  | none =>
    let open_braces := countChar clean_analysis lbrace
    let close_braces := countChar clean_analysis rbrace
    let open_brackets := countChar clean_analysis '['
    let close_brackets := countChar clean_analysis ']'
    if close_braces > open_braces ∨ close_brackets > open_brackets then
      RepairOutcome.panicOverflow
    else
      let fixed_json := clean_analysis
        ++ String.mk (List.replicate (open_braces - close_braces) rbrace)
        ++ String.mk (List.replicate (open_brackets - close_brackets) ']')
      match parseJson fixed_json with
      | some json => RepairOutcome.repaired json
      | none => RepairOutcome.fallback cannedErrorAnalysis

end Main

/-! ## The on-disk form of `TaskState` (`save_task_state` / `load_task_state`)

`save_task_state` (`src/main.rs:235`) writes `serde_json::to_string_pretty`
of the state; `load_task_state` (`src/main.rs:222`) reads the file back
and `serde_json::from_str`s it. The text layer (`Value` → pretty string
→ `Value`) is the external `serde_json` printer/parser pair, which is
the identity on values; the derived `Serialize`/`Deserialize` layer is
modelled here by `encodeTaskState` / `decodeTaskState` on `Json`
values, following the derive semantics: fields are looked up by name,
unknown fields are ignored, a missing or ill-typed field is an error,
`Option` is `null`-or-value, and a `HashMap` is an object. -/

namespace Main

/-- Derived `Serialize` for `ActionResult` (`src/main.rs:49`). -/
def encodeActionResult (r : ActionResult) : Json :=
  Json.obj
    [("action_type", Json.str r.action_type),
     ("success", Json.bool r.success),
     ("timestamp", Json.num r.timestamp),
     ("error_message",
       match r.error_message with
       | none => Json.null
       | some m => Json.str m),
     ("retry_count", Json.num (Int.ofNat r.retry_count))]

/-- Decoding a JSON boolean. -/
def decodeBool : Json → Option Bool
  | Json.bool b => some b
  | _ => none

/-- Decoding a `u32`-style field: a non-negative JSON integer. -/
def decodeNat : Json → Option Nat
  | Json.num n => if 0 ≤ n then some n.toNat else none
  | _ => none

/-- Decoding an `Option<String>` field: `null` or a string. -/
def decodeOptStr : Json → Option (Option String)
  | Json.null => some none
  | Json.str s => some (some s)
  | _ => none

/-- Derived `Deserialize` for `ActionResult`. -/
def decodeActionResult (j : Json) : Option ActionResult := do
  let fields ← j.as_object
  let action_type ← (lookupA fields "action_type").bind Json.as_str
  let success ← (lookupA fields "success").bind decodeBool
  let timestamp ← (lookupA fields "timestamp").bind Json.as_i64
  let error_message ← (lookupA fields "error_message").bind decodeOptStr
  let retry_count ← (lookupA fields "retry_count").bind decodeNat
  return ⟨action_type, success, timestamp, error_message, retry_count⟩

/-- Decoding a homogeneous JSON list, element by element. -/
def decodeListWith {α : Type} (d : Json → Option α) : List Json → Option (List α)
  | [] => some []
  | j :: rest =>
    match d j with
    | none => none
    | some a =>
      match decodeListWith d rest with
      | none => none
      | some tail => some (a :: tail)

/-- Decoding a JSON object as a `HashMap<String, String>`. -/
def decodePairs : List (String × Json) → Option (List (String × String))
  | [] => some []
  | (k, v) :: rest =>
    match v.as_str with
    | none => none
    | some s =>
      match decodePairs rest with
      | none => none
      | some tail => some ((k, s) :: tail)

/-- Derived `Serialize` for `TaskState` (`src/main.rs:35`), fields in
declaration order. -/
def encodeTaskState (s : TaskState) : Json :=
  Json.obj
    [("instruction", Json.str s.instruction),
     ("status", Json.str s.status),
     ("attempts", Json.num (Int.ofNat s.attempts)),
     ("last_action", Json.str s.last_action),
     ("success_criteria", Json.arr (s.success_criteria.map Json.str)),
     ("memory", Json.obj (s.memory.map (fun p => (p.1, Json.str p.2)))),
     ("feedback", Json.arr (s.feedback.map Json.str)),
     ("start_time", Json.num s.start_time),
     ("last_update", Json.num s.last_update),
     ("action_results", Json.arr (s.action_results.map encodeActionResult))]

/-- Derived `Deserialize` for `TaskState`. -/
def decodeTaskState (j : Json) : Option TaskState := do
  let fields ← j.as_object
  let instruction ← (lookupA fields "instruction").bind Json.as_str
  let status ← (lookupA fields "status").bind Json.as_str
  let attempts ← (lookupA fields "attempts").bind decodeNat
  let last_action ← (lookupA fields "last_action").bind Json.as_str
  let success_criteria ←
    ((lookupA fields "success_criteria").bind Json.as_array).bind
      (decodeListWith Json.as_str)
  let memory ←
    ((lookupA fields "memory").bind Json.as_object).bind decodePairs
  let feedback ←
    ((lookupA fields "feedback").bind Json.as_array).bind
      (decodeListWith Json.as_str)
  let start_time ← (lookupA fields "start_time").bind Json.as_i64
  let last_update ← (lookupA fields "last_update").bind Json.as_i64
  let action_results ←
    ((lookupA fields "action_results").bind Json.as_array).bind
      (decodeListWith decodeActionResult)
  return ⟨instruction, status, attempts, last_action, success_criteria, memory,
    feedback, start_time, last_update, action_results⟩

end Main

/-! ## Concrete inputs used by the witnesses and counterexamples -/

/-- The injection oracle on which every synthetic-input call succeeds. -/
def injAllOk : InjCall → Option String := fun _ => none

/-- The injection oracle on which the OS denies every synthetic input. -/
def injDenied : InjCall → Option String := fun _ => some "injection denied"

/-- The action plan entry `{"action":"wait","ms":100}`. -/
def waitActionJ : Json :=
  Json.obj [("action", Json.str "wait"), ("ms", Json.num 100)]

/-- A `mouse_move` action with both coordinates. -/
def mouseMoveAction (x y : Int) : Json :=
  Json.obj [("action", Json.str "mouse_move"), ("x", Json.num x), ("y", Json.num y)]

/-- A `mouse_move` action missing its coordinates. -/
def mouseMoveBare : Json := Json.obj [("action", Json.str "mouse_move")]

/-- A `mouse_click` action with the given button string. -/
def mouseClickAction (b : String) : Json :=
  Json.obj [("action", Json.str "mouse_click"), ("button", Json.str b)]

/-- A `window_focus` action with the given title. -/
def wfAction (title : String) : Json :=
  Json.obj [("action", Json.str "window_focus"), ("title", Json.str title)]

/-- An analysis with empty `ui_elements` and an empty `state` object. -/
def uiStateAnalysis : Json :=
  Json.obj [("ui_elements", Json.arr []), ("state", Json.obj [])]

/-- The result `retry_action` returns for `waitActionJ` against
`uiStateAnalysis` at time 7. -/
def c1ResultW : Main.ActionResult :=
  { action_type := "wait", success := true, timestamp := 7,
    error_message := none, retry_count := 0 }

/-- The `TaskState` coming out of that `retry_action` run. -/
def c1StateW : Main.TaskState :=
  { Main.TaskState.new "" 0 with action_results := [c1ResultW] }

/-- A failed result whose retry counter has reached the ceiling. -/
def c1PausedR : Main.ActionResult :=
  { action_type := "window_focus", success := false, timestamp := 0,
    error_message := none, retry_count := 3 }

/-- A state object whose `active_window` is the string
`"Mozilla Firefox"`. -/
def c7St : List (String × Json) := [("active_window", Json.str "Mozilla Firefox")]

/-- A library `TaskState` carrying `c7St` as its analysis state. -/
def c7Ts : TaskState :=
  { TaskState.new 0 with analysis := Json.obj [("state", Json.obj c7St)] }

/-- A fully-parameterized `window_focus` action. -/
def wfFullAction (title cls method : String) : Json :=
  Json.obj [("action", Json.str "window_focus"), ("title", Json.str title),
    ("class", Json.str cls), ("method", Json.str method)]

/-- A `key_press` action with the given key string. -/
def keyPressAction (k : String) : Json :=
  Json.obj [("action", Json.str "key_press"), ("key", Json.str k)]

/-- A `key_combination` action with the given key strings. -/
def keyCombinationAction (ks : List String) : Json :=
  Json.obj [("action", Json.str "key_combination"),
    ("keys", Json.arr (ks.map Json.str))]

/-- A `text_input` action with the given text. -/
def textInputAction (t : String) : Json :=
  Json.obj [("action", Json.str "text_input"), ("text", Json.str t)]

/-- The descriptive messages of the executor's failed `ActionResult`s:
one per missing required parameter, and the unknown-action-type one
(`src/actions/executor.rs`). -/
def paramErrorMessages : List (Option String) :=
  [some "Missing parameters for window_focus action",
   some "Missing coordinates for mouse_move action",
   some "Missing button for mouse_click action",
   some "Missing key for key_press action",
   some "Missing keys for key_combination action",
   some "Missing text for text_input action",
   some "Missing ms for wait action",
   some "Missing reason for task_done action",
   some "Unknown action type"]

/-- The failed result of a `mouse_move` with no coordinates at time 0. -/
def c4FailR : ActionResult :=
  (ActionResult.new "mouse_move" 0).mark_error
    "Missing coordinates for mouse_move action" 0

/-- The state a fresh `TaskState` becomes after recording `c4FailR`. -/
def c4FailTs : TaskState :=
  { TaskState.new 0 with
      attempts := 1
      last_update := 0
      action_results := [c4FailR] }

/-! ## Helper lemmas -/

@[simp]
theorem decodeListWith_str_map (l : List String) :
    Main.decodeListWith Json.as_str (l.map Json.str) = some l := by
  induction l with
  | nil => rfl
  | cons a rest ih => simp [Main.decodeListWith, Json.as_str, ih]

@[simp]
theorem decodePairs_map (l : List (String × String)) :
    Main.decodePairs (l.map (fun p => (p.1, Json.str p.2))) = some l := by
  induction l with
  | nil => rfl
  | cons p rest ih => simp [Main.decodePairs, Json.as_str, ih]

@[simp]
theorem decodeActionResult_encode (r : Main.ActionResult) :
    Main.decodeActionResult (Main.encodeActionResult r) = some r := by
  obtain ⟨a, s, t, e, n⟩ := r
  cases e <;> rfl

@[simp]
theorem decodeListWith_encodeActionResult (l : List Main.ActionResult) :
    Main.decodeListWith Main.decodeActionResult (l.map Main.encodeActionResult) =
      some l := by
  induction l with
  | nil => rfl
  | cons r rest ih => simp [Main.decodeListWith, ih]

/-- Net effect of `TaskState::add_action_result`: the pushed result and
the `attempts`/`last_update` changes made by its `update("", "")` call,
which parses nothing from the empty strings. -/
theorem add_action_result_spec (ts : TaskState) (r : ActionResult) (now : Int) :
    TaskState.add_action_result ts r now =
      Except.ok
        { ts with
            attempts := ts.attempts + 1
            last_update := now
            action_results := ts.action_results ++ [r] } := rfl

/-- On `Except`, sequencing a unit-valued step succeeds exactly when
the step does and the continuation does. -/
theorem bind_unit_ok {α : Type} (u : Except String Unit)
    (k : Except String α) (p : α)
    (h : (u >>= fun _ => k) = Except.ok p) : k = Except.ok p := by
  cases u with
  | error e => simp [Bind.bind, Except.bind] at h
  | ok a => simpa [Bind.bind, Except.bind] using h

/-- A dispatch arm that ends in `result.mark_success` cannot produce a
failed result. -/
theorem pure_markSuccess_not_failed (now : Int) (r0 r : ActionResult)
    (ts ts₁ : TaskState)
    (h : (pure (r0.mark_success now, ts) :
        Except String (ActionResult × TaskState)) = Except.ok (r, ts₁))
    (hf : r.success = false) : False := by
  simp only [pure, Except.pure, Except.ok.injEq, Prod.mk.injEq] at h
  obtain ⟨hr, -⟩ := h
  rw [← hr] at hf
  simp [ActionResult.mark_success] at hf

/-- Reading the strings back out of an action-plan `keys` array. -/
theorem filterMap_as_str_map_str (l : List String) :
    (l.map Json.str).filterMap Json.as_str = l := by
  induction l with
  | nil => rfl
  | cons a rest ih => simp [Json.as_str, ih]

/-- A failed result out of `execArm` leaves the state untouched,
carries one of the missing-parameter / unknown-action-type messages,
and is reproduced identically by every injection oracle: the failure
branches perform no injection calls. -/
theorem execArm_failed (inj : InjCall → Option String) (now : Int)
    (action : Json) (ts ts₁ : TaskState) (r : ActionResult)
    (h : execArm inj now action ts = Except.ok (r, ts₁))
    (hf : r.success = false) :
    ts₁ = ts ∧ r.error_message ∈ paramErrorMessages ∧
      ∀ inj' : InjCall → Option String,
        execArm inj' now action ts = Except.ok (r, ts₁) := by
  simp only [execArm] at h
  by_cases h1 : (action.idx "action").as_str = some "window_focus"
  · rw [if_pos h1] at h
    cases ht : (action.idx "title").as_str with
    | some t =>
      cases hc : (action.idx "class").as_str with
      | some c =>
        cases hm : (action.idx "method").as_str with
        | some m =>
          simp only [ht, hc, hm] at h
          repeat'
            first
            | split at h
            | replace h := bind_unit_ok _ _ _ h
          all_goals exact (pure_markSuccess_not_failed now _ r _ ts₁ h hf).elim
        | none =>
          simp only [ht, hc, hm, pure, Except.pure, Except.ok.injEq,
            Prod.mk.injEq] at h
          obtain ⟨hr, hts⟩ := h
          subst hr
          subst hts
          refine ⟨rfl, by simp [paramErrorMessages, ActionResult.mark_error,
            ActionResult.new], fun inj' => ?_⟩
          simp only [execArm]
          rw [if_pos h1]
          simp only [ht, hc, hm]
          rfl
      | none =>
        simp only [ht, hc, pure, Except.pure, Except.ok.injEq,
          Prod.mk.injEq] at h
        obtain ⟨hr, hts⟩ := h
        subst hr
        subst hts
        refine ⟨rfl, by simp [paramErrorMessages, ActionResult.mark_error,
          ActionResult.new], fun inj' => ?_⟩
        simp only [execArm]
        rw [if_pos h1]
        simp only [ht, hc]
        rfl
    | none =>
      simp only [ht, pure, Except.pure, Except.ok.injEq, Prod.mk.injEq] at h
      obtain ⟨hr, hts⟩ := h
      subst hr
      subst hts
      refine ⟨rfl, by simp [paramErrorMessages, ActionResult.mark_error,
        ActionResult.new], fun inj' => ?_⟩
      simp only [execArm]
      rw [if_pos h1]
      simp only [ht]
      rfl
  · rw [if_neg h1] at h
    by_cases h2 : (action.idx "action").as_str = some "mouse_move"
    · rw [if_pos h2] at h
      cases hx : (action.idx "x").as_i64 with
      | some x =>
        cases hy : (action.idx "y").as_i64 with
        | some y =>
          simp only [hx, hy] at h
          repeat'
            first
            | split at h
            | replace h := bind_unit_ok _ _ _ h
          all_goals exact (pure_markSuccess_not_failed now _ r _ ts₁ h hf).elim
        | none =>
          simp only [hx, hy, pure, Except.pure, Except.ok.injEq,
            Prod.mk.injEq] at h
          obtain ⟨hr, hts⟩ := h
          subst hr
          subst hts
          refine ⟨rfl, by simp [paramErrorMessages, ActionResult.mark_error,
            ActionResult.new], fun inj' => ?_⟩
          simp only [execArm]
          rw [if_neg h1, if_pos h2]
          simp only [hx, hy]
          rfl
      | none =>
        simp only [hx, pure, Except.pure, Except.ok.injEq, Prod.mk.injEq] at h
        obtain ⟨hr, hts⟩ := h
        subst hr
        subst hts
        refine ⟨rfl, by simp [paramErrorMessages, ActionResult.mark_error,
          ActionResult.new], fun inj' => ?_⟩
        simp only [execArm]
        rw [if_neg h1, if_pos h2]
        simp only [hx]
        rfl
    · rw [if_neg h2] at h
      by_cases h3 : (action.idx "action").as_str = some "mouse_click"
      · rw [if_pos h3] at h
        cases hb : (action.idx "button").as_str with
        | some b =>
          simp only [hb] at h
          repeat'
            first
            | split at h
            | replace h := bind_unit_ok _ _ _ h
          all_goals exact (pure_markSuccess_not_failed now _ r _ ts₁ h hf).elim
        | none =>
          simp only [hb, pure, Except.pure, Except.ok.injEq,
            Prod.mk.injEq] at h
          obtain ⟨hr, hts⟩ := h
          subst hr
          subst hts
          refine ⟨rfl, by simp [paramErrorMessages, ActionResult.mark_error,
            ActionResult.new], fun inj' => ?_⟩
          simp only [execArm]
          rw [if_neg h1, if_neg h2, if_pos h3]
          simp only [hb]
          rfl
      · rw [if_neg h3] at h
        by_cases h4 : (action.idx "action").as_str = some "key_press"
        · rw [if_pos h4] at h
          cases hk : (action.idx "key").as_str with
          | some k =>
            simp only [hk] at h
            repeat'
              first
              | split at h
              | replace h := bind_unit_ok _ _ _ h
            all_goals exact (pure_markSuccess_not_failed now _ r _ ts₁ h hf).elim
          | none =>
            simp only [hk, pure, Except.pure, Except.ok.injEq,
              Prod.mk.injEq] at h
            obtain ⟨hr, hts⟩ := h
            subst hr
            subst hts
            refine ⟨rfl, by simp [paramErrorMessages, ActionResult.mark_error,
              ActionResult.new], fun inj' => ?_⟩
            simp only [execArm]
            rw [if_neg h1, if_neg h2, if_neg h3, if_pos h4]
            simp only [hk]
            rfl
        · rw [if_neg h4] at h
          by_cases h5 : (action.idx "action").as_str = some "key_combination"
          · rw [if_pos h5] at h
            cases hks : (action.idx "keys").as_array with
            | some keys =>
              simp only [hks] at h
              repeat'
                first
                | split at h
                | replace h := bind_unit_ok _ _ _ h
              all_goals exact (pure_markSuccess_not_failed now _ r _ ts₁ h hf).elim
            | none =>
              simp only [hks, pure, Except.pure, Except.ok.injEq,
                Prod.mk.injEq] at h
              obtain ⟨hr, hts⟩ := h
              subst hr
              subst hts
              refine ⟨rfl, by simp [paramErrorMessages,
                ActionResult.mark_error, ActionResult.new], fun inj' => ?_⟩
              simp only [execArm]
              rw [if_neg h1, if_neg h2, if_neg h3, if_neg h4, if_pos h5]
              simp only [hks]
              rfl
          · rw [if_neg h5] at h
            by_cases h6 : (action.idx "action").as_str = some "text_input"
            · rw [if_pos h6] at h
              cases htx : (action.idx "text").as_str with
              | some t =>
                simp only [htx] at h
                repeat'
                  first
                  | split at h
                  | replace h := bind_unit_ok _ _ _ h
                all_goals exact (pure_markSuccess_not_failed now _ r _ ts₁ h hf).elim
              | none =>
                simp only [htx, pure, Except.pure, Except.ok.injEq,
                  Prod.mk.injEq] at h
                obtain ⟨hr, hts⟩ := h
                subst hr
                subst hts
                refine ⟨rfl, by simp [paramErrorMessages,
                  ActionResult.mark_error, ActionResult.new], fun inj' => ?_⟩
                simp only [execArm]
                rw [if_neg h1, if_neg h2, if_neg h3, if_neg h4, if_neg h5,
                  if_pos h6]
                simp only [htx]
                rfl
            · rw [if_neg h6] at h
              by_cases h7 : (action.idx "action").as_str = some "wait"
              · rw [if_pos h7] at h
                cases hms : (action.idx "ms").as_i64 with
                | some ms =>
                  simp only [hms] at h
                  exact (pure_markSuccess_not_failed now _ r _ ts₁ h hf).elim
                | none =>
                  simp only [hms, pure, Except.pure, Except.ok.injEq,
                    Prod.mk.injEq] at h
                  obtain ⟨hr, hts⟩ := h
                  subst hr
                  subst hts
                  refine ⟨rfl, by simp [paramErrorMessages,
                    ActionResult.mark_error, ActionResult.new], fun inj' => ?_⟩
                  simp only [execArm]
                  rw [if_neg h1, if_neg h2, if_neg h3, if_neg h4, if_neg h5,
                    if_neg h6, if_pos h7]
                  simp only [hms]
                  rfl
              · rw [if_neg h7] at h
                by_cases h8 : (action.idx "action").as_str = some "task_done"
                · rw [if_pos h8] at h
                  cases hrs : (action.idx "reason").as_str with
                  | some reason =>
                    simp only [hrs] at h
                    exact (pure_markSuccess_not_failed now _ r _ ts₁ h hf).elim
                  | none =>
                    simp only [hrs, pure, Except.pure, Except.ok.injEq,
                      Prod.mk.injEq] at h
                    obtain ⟨hr, hts⟩ := h
                    subst hr
                    subst hts
                    refine ⟨rfl, by simp [paramErrorMessages,
                      ActionResult.mark_error, ActionResult.new],
                      fun inj' => ?_⟩
                    simp only [execArm]
                    rw [if_neg h1, if_neg h2, if_neg h3, if_neg h4, if_neg h5,
                      if_neg h6, if_neg h7, if_pos h8]
                    simp only [hrs]
                    rfl
                · rw [if_neg h8] at h
                  simp only [pure, Except.pure, Except.ok.injEq,
                    Prod.mk.injEq] at h
                  obtain ⟨hr, hts⟩ := h
                  subst hr
                  subst hts
                  refine ⟨rfl, by simp [paramErrorMessages,
                    ActionResult.mark_error, ActionResult.new],
                    fun inj' => ?_⟩
                  simp only [execArm]
                  rw [if_neg h1, if_neg h2, if_neg h3, if_neg h4, if_neg h5,
                    if_neg h6, if_neg h7, if_neg h8]
                  rfl

/-! ## Claim theorems -/

/-- C9: every `TaskState::add_action_result` call appends exactly one
`ActionResult`, increments `attempts` by exactly 1 and refreshes
`last_update`, leaving `status`, `last_action`, `success_criteria`,
`memory` and `feedback` (and `analysis`) unchanged: its internal
`update("", "")` call parses neither an action list nor an analysis
from the empty string, and in particular it never panics. -/
theorem c9_add_action_result_frame (ts : TaskState) (r : ActionResult) (now : Int) :
    TaskState.add_action_result ts r now =
      Except.ok
        { ts with
            attempts := ts.attempts + 1
            last_update := now
            action_results := ts.action_results ++ [r] } := rfl

/-- C8: deserializing the serialized on-disk JSON form of any
`TaskState` yields a state equal to the original in all fields (the
value-level round trip of `save_task_state` / `load_task_state`; the
text layer is `serde_json`'s own printer/parser pair). -/
theorem c8_task_state_roundtrip (s : Main.TaskState) :
    Main.decodeTaskState (Main.encodeTaskState s) = some s := by
  obtain ⟨i, st, a, la, sc, mem, fb, s0, lu, ar⟩ := s
  simp [Main.decodeTaskState, Main.encodeTaskState, lookupA, Json.as_object,
    Json.as_str, Json.as_i64, Json.as_array, Main.decodeNat, Option.bind]

/-- C10 counterexample: after `mark_error` then `mark_success`, the
`src/models/action_result.rs` implementation keeps the error message
while the `src/models.rs` implementation clears it, so the two do not
agree on `error_message`. -/
theorem c10_counterexample :
    (((ActionResult.new "x" 0).mark_error "e" 0).mark_success 0).error_message =
        some "e" ∧
      (((ModelsRs.ActionResult.new "x" 0).mark_error "e").mark_success).error_message =
        none :=
  ⟨rfl, rfl⟩

/-- C10 amended: the two `mark_success` implementations agree on
`success` (both set it) and on `retry_count` (both preserve it), but
not on `error_message`: `src/models/action_result.rs` preserves it
(refreshing the timestamp instead) while `src/models.rs` clears it. -/
theorem c10_amended_mark_success_divergence (a : ActionResult)
    (b : ModelsRs.ActionResult) (now : Int) :
    (a.mark_success now).success = true ∧
      b.mark_success.success = true ∧
      (a.mark_success now).error_message = a.error_message ∧
      b.mark_success.error_message = none ∧
      (a.mark_success now).retry_count = a.retry_count ∧
      b.mark_success.retry_count = b.retry_count :=
  ⟨rfl, rfl, rfl, rfl, rfl, rfl⟩

/-- C2 counterexample: executing the plan entry
`{"action":"wait","ms":100}` against a fresh `TaskState` (whose
`attempts` is 0) yields a successful `wait` result but leaves
`attempts` at 1, not unchanged: `execute_action` calls
`add_action_result`, whose `update("", "")` increments `attempts`. -/
theorem c2_counterexample :
    (TaskState.new 0).attempts = 0 ∧
      (execute_action injAllOk 1 waitActionJ (TaskState.new 0)).toOption.map
          (fun p => (p.1.action_type, p.1.success, p.2.attempts)) =
        some ("wait", true, 1) :=
  ⟨rfl, rfl⟩

/-- C2 amended: executing `{"action":"wait","ms":100}` against any
`TaskState` produces one successful `wait` `ActionResult`, appends it
to `action_results`, and increments `attempts` by exactly 1 (and
refreshes `last_update`); all other fields are unchanged. `update` is
the only function that increments `attempts`, but action execution
reaches it through `add_action_result`. -/
theorem c2_amended_wait_execution (inj : InjCall → Option String) (now : Int)
    (ts : TaskState) :
    execute_action inj now waitActionJ ts =
      Except.ok ((ActionResult.new "wait" now).mark_success now,
        { ts with
            attempts := ts.attempts + 1
            last_update := now
            action_results :=
              ts.action_results ++ [(ActionResult.new "wait" now).mark_success now] }) :=
  rfl

/-- C3: the analysis-JSON repair pass appends the closing-brace and
closing-bracket deficits and re-parses, and substitutes the canned
error analysis when that fails — but on an input with more closers
than openers (here the one-character string of a closing brace) the
`usize` subtraction `open_braces - close_braces` overflows, a panic in
a debug build, so the path does not survive every input string. -/
theorem c3_repair_underflow_eval :
    Main.parseAnalysisWithRepair "\x7d" = Main.RepairOutcome.panicOverflow ∧
      Main.parseAnalysisWithRepair "\x7b\"context\": \"a\"" =
        Main.RepairOutcome.repaired (Json.obj [("context", Json.str "a")]) ∧
      Main.parseAnalysisWithRepair "][" =
        Main.RepairOutcome.fallback Main.cannedErrorAnalysis :=
  ⟨rfl, rfl, rfl⟩

/-- C4 counterexample: when the injection layer denies the synthetic
input for a well-formed `mouse_move`, `execute_action` does not return
a failed `ActionResult` — the `.unwrap()` panics (the `Except.error`),
taking the driver down with it. -/
theorem c4_counterexample :
    execute_action injDenied 0 (mouseMoveAction 1 2) (TaskState.new 0) =
      Except.error "injection denied" := rfl

/-- C4 amended: an injection-layer failure makes `execute_action`
panic via `.unwrap()` — for every action kind that dispatches an
injection call (window focus with a known method, mouse moves, known
mouse buttons, known keys, key combinations starting with a recognized
modifier, text input), an OS denial aborts instead of producing a
failed `ActionResult`. Failed `ActionResult`s, with their descriptive
messages, arise only from missing required parameters and unknown
action types; those paths perform no injection call, so they return
the same failed result — and never panic — whatever the injection
layer does. -/
theorem c4_amended_injection_failure_panics :
    (∀ (e : String) (now : Int) (ts : TaskState) (title cls method : String),
        method = "alt_tab" ∨ method = "super_tab" →
        execute_action (fun _ => some e) now (wfFullAction title cls method) ts =
          Except.error e) ∧
      (∀ (e : String) (now : Int) (ts : TaskState) (x y : Int),
        execute_action (fun _ => some e) now (mouseMoveAction x y) ts =
          Except.error e) ∧
      (∀ (e : String) (now : Int) (ts : TaskState) (b : String),
        b = "left" ∨ b = "right" ∨ b = "middle" →
        execute_action (fun _ => some e) now (mouseClickAction b) ts =
          Except.error e) ∧
      (∀ (e : String) (now : Int) (ts : TaskState) (k : String),
        strLower k = "return" ∨ strLower k = "enter" ∨ strLower k = "tab" ∨
            strLower k = "escape" →
        execute_action (fun _ => some e) now (keyPressAction k) ts =
          Except.error e) ∧
      (∀ (e : String) (now : Int) (ts : TaskState) (m : String)
          (rest : List String),
        (modKeyOf (strLower m)).isSome = true →
        execute_action (fun _ => some e) now (keyCombinationAction (m :: rest))
          ts = Except.error e) ∧
      (∀ (e : String) (now : Int) (ts : TaskState) (t : String),
        execute_action (fun _ => some e) now (textInputAction t) ts =
          Except.error e) ∧
      (∀ (inj : InjCall → Option String) (now : Int) (action : Json)
          (ts ts' : TaskState) (r : ActionResult),
        execute_action inj now action ts = Except.ok (r, ts') →
        r.success = false →
        r.error_message ∈ paramErrorMessages ∧
          ∀ inj' : InjCall → Option String,
            execute_action inj' now action ts = Except.ok (r, ts')) := by
  refine ⟨?_, ?_, ?_, ?_, ?_, ?_, ?_⟩
  · rintro e now ts title cls method (rfl | rfl) <;> rfl
  · intro e now ts x y
    rfl
  · rintro e now ts b (rfl | rfl | rfl) <;> rfl
  · intro e now ts k h
    rcases h with h | h | h | h <;>
      simp [execute_action, execArm, keyPressAction, Json.idx, Json.getKey?,
        lookupA, Json.as_str, h, unwrapInj, Bind.bind, Except.bind]
  · intro e now ts m rest h
    obtain ⟨mk, hmk⟩ := Option.isSome_iff_exists.mp h
    simp [execute_action, execArm, keyCombinationAction, Json.idx,
      Json.getKey?, lookupA, Json.as_str, Json.as_array,
      filterMap_as_str_map_str, injModLoop, hmk, unwrapInj, Bind.bind,
      Except.bind]
  · intro e now ts t
    rfl
  · intro inj now action ts ts' r h hf
    cases he : execArm inj now action ts with
    | error e =>
      rw [execute_action] at h
      simp [he, Bind.bind, Except.bind] at h
    | ok p =>
      obtain ⟨r0, ts₂⟩ := p
      have hx : execute_action inj now action ts =
          Except.ok (r0,
            { ts₂ with
                attempts := ts₂.attempts + 1
                last_update := now
                action_results := ts₂.action_results ++ [r0] }) := by
        rw [execute_action]
        simp [he, add_action_result_spec, Bind.bind, Except.bind, pure,
          Except.pure]
      rw [hx] at h
      simp only [Except.ok.injEq, Prod.mk.injEq] at h
      obtain ⟨hr, hts⟩ := h
      subst hr
      obtain ⟨-, hmem, hinj⟩ := execArm_failed inj now action ts ts₂ r0 he hf
      refine ⟨hmem, fun inj' => ?_⟩
      have hx' : execute_action inj' now action ts =
          Except.ok (r0,
            { ts₂ with
                attempts := ts₂.attempts + 1
                last_update := now
                action_results := ts₂.action_results ++ [r0] }) := by
        rw [execute_action]
        simp [hinj inj', add_action_result_spec, Bind.bind, Except.bind,
          pure, Except.pure]
      rw [hx', hts]

/-- C4 witness: concrete denials panic on a window focus, a left
click, a Tab press and a Ctrl+T combination, while a `mouse_move`
missing its coordinates yields the same failed `ActionResult` (whose
message is in the missing-parameter list) under every oracle. -/
theorem c4_witness :
    execute_action injDenied 0 (wfFullAction "Firefox" "browser" "alt_tab")
        (TaskState.new 0) = Except.error "injection denied" ∧
      execute_action injDenied 0 (mouseClickAction "left") (TaskState.new 0) =
        Except.error "injection denied" ∧
      execute_action injDenied 0 (keyPressAction "Tab") (TaskState.new 0) =
        Except.error "injection denied" ∧
      execute_action injDenied 0 (keyCombinationAction ["ctrl", "t"])
        (TaskState.new 0) = Except.error "injection denied" ∧
      c4FailR.error_message ∈ paramErrorMessages ∧
      ∀ inj' : InjCall → Option String,
        execute_action inj' 0 mouseMoveBare (TaskState.new 0) =
          Except.ok (c4FailR, c4FailTs) :=
  ⟨c4_amended_injection_failure_panics.1 "injection denied" 0 (TaskState.new 0)
      "Firefox" "browser" "alt_tab" (Or.inl rfl),
    c4_amended_injection_failure_panics.2.2.1 "injection denied" 0
      (TaskState.new 0) "left" (Or.inl rfl),
    c4_amended_injection_failure_panics.2.2.2.1 "injection denied" 0
      (TaskState.new 0) "Tab" (Or.inr (Or.inr (Or.inl rfl))),
    c4_amended_injection_failure_panics.2.2.2.2.1 "injection denied" 0
      (TaskState.new 0) "ctrl" ["t"] rfl,
    (c4_amended_injection_failure_panics.2.2.2.2.2.2 injAllOk 0 mouseMoveBare
      (TaskState.new 0) c4FailTs c4FailR rfl rfl).1,
    (c4_amended_injection_failure_panics.2.2.2.2.2.2 injAllOk 0 mouseMoveBare
      (TaskState.new 0) c4FailTs c4FailR rfl rfl).2⟩

/-- C5 counterexample: a `mouse_click` whose button is the unknown
string `"weird"` is reported as a success by `execute_action`, not as
an error. -/
theorem c5_counterexample :
    (execute_action injAllOk 0 (mouseClickAction "weird") (TaskState.new 0)).toOption.map
        (fun p => (p.1.success, p.1.error_message)) =
      some (true, none) := rfl

/-- C5 amended: for every button string other than `left`, `right` and
`middle`, `execute_action` performs no click, logs only a console
warning, and still returns a successful `ActionResult` (only a missing
`button` field is an error); the actuator-level `Mouse::click`, by
contrast, does return an `Err` for such button names. -/
theorem c5_amended_unknown_button_success (inj : InjCall → Option String)
    (now : Int) (ts : TaskState) (b : String)
    (h1 : b ≠ "left") (h2 : b ≠ "right") (h3 : b ≠ "middle")
    (h4 : strLower b ≠ "left") (h5 : strLower b ≠ "right")
    (h6 : strLower b ≠ "middle") :
    execute_action inj now (mouseClickAction b) ts =
      Except.ok ((ActionResult.new "mouse_click" now).mark_success now,
        { ts with
            attempts := ts.attempts + 1
            last_update := now
            action_results :=
              ts.action_results ++
                [(ActionResult.new "mouse_click" now).mark_success now] }) ∧
      Mouse.click inj b = Except.error ("Unknown mouse button: " ++ b) := by
  constructor
  · simp [execute_action, execArm, mouseClickAction, Json.idx, Json.getKey?,
      lookupA, Json.as_str, h1, h2, h3, add_action_result_spec]
  · simp [Mouse.click, h4, h5, h6]

/-- C5 witness: the amended theorem at the concrete button `"weird"`. -/
theorem c5_witness :
    execute_action injAllOk 0 (mouseClickAction "weird") (TaskState.new 0) =
      Except.ok ((ActionResult.new "mouse_click" 0).mark_success 0,
        { TaskState.new 0 with
            attempts := 1
            last_update := 0
            action_results := [(ActionResult.new "mouse_click" 0).mark_success 0] }) ∧
      Mouse.click injAllOk "weird" = Except.error ("Unknown mouse button: " ++ "weird") :=
  c5_amended_unknown_button_success injAllOk 0 (TaskState.new 0) "weird"
    (by decide) (by decide) (by decide) (by decide) (by decide) (by decide)

/-- C6 counterexample: a state whose three most-recent feedback entries
all carry the pre-colon label `"timeout"` but whose `attempts` is 0 is
not paused — the repeated-label detector only runs when
`attempts > 3`, so identical labels alone do not give `true`. -/
theorem c6_counterexample :
    (["timeout: x", "timeout: y", "timeout: z"].reverse.take 3).map splitColonHead =
        ["timeout", "timeout", "timeout"] ∧
      ({ TaskState.new 0 with
          feedback := ["timeout: x", "timeout: y", "timeout: z"] } : TaskState).should_pause =
        false :=
  ⟨rfl, rfl⟩

/-- C6 amended: `should_pause` returns true iff `attempts > 10`, or
`attempts > 3` and the feedback list has at least three entries whose
three most-recent pre-colon labels (most recent first, split on the
first colon) are identical; in particular `attempts == 11` gives true
and `attempts == 10` with non-repeating feedback gives false. The same
characterization holds for the `src/main.rs` duplicate. -/
theorem c6_amended_should_pause_iff :
    (∀ ts : TaskState,
      ts.should_pause = true ↔
        (10 < ts.attempts ∨
          (3 < ts.attempts ∧
            match (ts.feedback.reverse.take 3).map splitColonHead with
            | [a, b, c] => a = b ∧ b = c
            | _ => False))) ∧
      (∀ ts : Main.TaskState,
        ts.should_pause = true ↔
          (10 < ts.attempts ∨
            (3 < ts.attempts ∧
              match (ts.feedback.reverse.take 3).map splitColonHead with
              | [a, b, c] => a = b ∧ b = c
              | _ => False))) := by
  constructor
  · intro ts
    unfold TaskState.should_pause
    rcases hl : (ts.feedback.reverse.take 3).map splitColonHead with
      _ | ⟨a, _ | ⟨b, _ | ⟨c, _ | ⟨d, l⟩⟩⟩⟩ <;>
      split_ifs with h1 h2 <;> simp_all
  · intro ts
    unfold Main.TaskState.should_pause
    rcases hl : (ts.feedback.reverse.take 3).map splitColonHead with
      _ | ⟨a, _ | ⟨b, _ | ⟨c, _ | ⟨d, l⟩⟩⟩⟩ <;>
      split_ifs with h1 h2 <;> simp_all

/-- C7 counterexample: with the analysis's `state` object present but
the `active_window` key absent, the Verifier does not return a failed
`ActionResult` — `state["active_window"]` indexes a `serde_json::Map`
and panics (`no entry found for key`). -/
theorem c7_counterexample :
    verify_action 0 (wfAction "x")
        { TaskState.new 0 with analysis := Json.obj [("state", Json.obj [])] } =
      Except.error "no entry found for key" := rfl

/-- C7 amended: with the `state` object present, when `active_window`
is present with a string value the Verifier succeeds iff that string
case-insensitively contains the action's title; when `active_window`
is present but not a string (e.g. `null`) it returns a failed
`ActionResult` (`No active window information available`); when the
`active_window` key is absent entirely, the map index panics instead
of returning a failure. -/
theorem c7_amended_window_focus_verification (now : Int) (ts : TaskState)
    (st : List (String × Json)) (title : String)
    (hstate : ts.analysis.getKey? "state" = some (Json.obj st)) :
    (∀ w : String, lookupA st "active_window" = some (Json.str w) →
        ∃ r : ActionResult,
          verify_action now (wfAction title) ts = Except.ok r ∧
            (r.success = true ↔
              strContains (strLower w) (strLower title) = true)) ∧
      (lookupA st "active_window" = some Json.null →
        ∃ r : ActionResult,
          verify_action now (wfAction title) ts = Except.ok r ∧
            r.success = false ∧
            r.error_message = some "No active window information available") ∧
      (lookupA st "active_window" = none →
        verify_action now (wfAction title) ts =
          Except.error "no entry found for key") := by
  refine ⟨?_, ?_, ?_⟩
  · intro w hw
    by_cases hc : strContains (strLower w) (strLower title) = true
    · refine ⟨(ActionResult.new "window_focus" now).mark_success now, ?_, ?_⟩
      · unfold verify_action
        rw [hstate]
        simp [Json.as_object, wfAction, Json.idx, Json.getKey?, lookupA,
          Json.as_str, hw, hc]
      · simp [ActionResult.mark_success, hc]
    · refine ⟨(ActionResult.new "window_focus" now).mark_error
        ("Window focus failed. Expected: " ++ title ++ ", Got: " ++ w) now, ?_, ?_⟩
      · unfold verify_action
        rw [hstate]
        simp [Json.as_object, wfAction, Json.idx, Json.getKey?, lookupA,
          Json.as_str, hw, hc]
      · simp [ActionResult.mark_error, ActionResult.new, hc]
  · intro hw
    refine ⟨(ActionResult.new "window_focus" now).mark_error
      "No active window information available" now, ?_, rfl, rfl⟩
    unfold verify_action
    rw [hstate]
    simp [Json.as_object, wfAction, Json.idx, Json.getKey?, lookupA,
      Json.as_str, hw]
  · intro hw
    unfold verify_action
    rw [hstate]
    simp [Json.as_object, wfAction, Json.idx, Json.getKey?, lookupA,
      Json.as_str, hw]

/-- C7 witness: the amended theorem at a concrete state whose
`active_window` is `"Mozilla Firefox"` and a `window_focus` on
`"firefox"`. -/
theorem c7_witness :
    ∃ r : ActionResult,
      verify_action 0 (wfAction "firefox") c7Ts = Except.ok r ∧
        (r.success = true ↔
          strContains (strLower "Mozilla Firefox") (strLower "firefox") = true) :=
  (c7_amended_window_focus_verification 0 c7Ts c7St "firefox" rfl).1
    "Mozilla Firefox" rfl

/-- Every `ActionResult` that `Main.verifyArm` returns has a zero
retry counter: it is freshly created by `ActionResult::new` and only
its `success`/`error_message` fields are changed. -/
theorem main_verifyArm_retry_count_zero (now : Int) (action : Json)
    (state : List (String × Json)) (r : Main.ActionResult)
    (h : Main.verifyArm now action state = Except.ok r) :
    r.retry_count = 0 := by
  simp only [Main.verifyArm] at h
  repeat' split at h
  all_goals first
    | exact Except.noConfusion h
    | (obtain rfl := (Except.ok.inj h).symm; rfl)

/-- Any `ActionResult` that `Main.verify_action` returns also carries
a zero retry counter. -/
theorem main_verify_action_retry_count_zero (now : Int)
    (action analysis_json : Json) (ts ts' : Main.TaskState)
    (r : Main.ActionResult)
    (h : Main.verify_action now action analysis_json ts = Except.ok (r, ts')) :
    r.retry_count = 0 := by
  cases hu : (analysis_json.idx "ui_elements").as_array with
  | none =>
    simp only [Main.verify_action, hu, Except.ok.injEq, Prod.mk.injEq] at h
    obtain ⟨h1, -⟩ := h
    subst h1
    rfl
  | some ui =>
    cases hs : (analysis_json.idx "state").as_object with
    | none =>
      simp only [Main.verify_action, hu, hs, Except.ok.injEq, Prod.mk.injEq] at h
      obtain ⟨h1, -⟩ := h
      subst h1
      rfl
    | some state =>
      cases hv : Main.verifyArm now action state with
      | error e =>
        simp only [Main.verify_action, hu, hs, hv] at h
        exact Except.noConfusion h
      | ok r0 =>
        simp only [Main.verify_action, hu, hs, hv, Except.ok.injEq,
          Prod.mk.injEq] at h
        obtain ⟨h1, -⟩ := h
        subst h1
        exact main_verifyArm_retry_count_zero now action state r0 hv

/-- C1: the retry/verify process never returns an `ActionResult` whose
`retry_count` exceeds 3 (`retry_action` re-verifies at most once, and
each verification builds a fresh result), and the Iteration Driver's
post-action check turns a still-failing result whose `retry_count` has
reached 3 into `TaskState.status = "paused"` with a 5-second sleep
before the loop resumes (breaking the current action loop). -/
theorem c1_retry_ceiling_and_pause :
    (∀ (now : Int) (action analysis_json : Json) (ts ts' : Main.TaskState)
        (r : Main.ActionResult),
      Main.retry_action now action analysis_json ts = Except.ok (r, ts') →
      r.retry_count ≤ 3) ∧
      (∀ (r : Main.ActionResult) (ts : Main.TaskState),
        r.success = false → 3 ≤ r.retry_count →
        Main.handle_action_result r ts =
          ({ ts with status := "paused" }, some 5, true)) := by
  constructor
  · intro now action analysis_json ts ts' r h
    unfold Main.retry_action at h
    cases hv : Main.verify_action now action analysis_json ts with
    | error e => rw [hv] at h; simp [Bind.bind, Except.bind] at h
    | ok p =>
      obtain ⟨result, ts1⟩ := p
      rw [hv] at h
      simp only [Bind.bind, Except.bind] at h
      by_cases hc : result.success = false ∧ result.retry_count < 3
      · rw [if_pos hc] at h
        have h0 := main_verify_action_retry_count_zero now action analysis_json
          ts1 ts' r h
        omega
      · rw [if_neg hc] at h
        simp only [pure, Except.pure, Except.ok.injEq, Prod.mk.injEq] at h
        obtain ⟨hr, -⟩ := h
        subst hr
        have h0 := main_verify_action_retry_count_zero now action analysis_json
          ts ts1 result hv
        omega
  · intro r ts h1 h2
    simp [Main.handle_action_result, h1, h2]

/-- C1 witness: a concrete `retry_action` run (a `wait` action against
an analysis with `ui_elements` and `state` present) stays within the
retry ceiling, and the driver check pauses a concrete exhausted
failure. -/
theorem c1_witness :
    c1ResultW.retry_count ≤ 3 ∧
      Main.handle_action_result c1PausedR (Main.TaskState.new "" 0) =
        ({ Main.TaskState.new "" 0 with status := "paused" }, some 5, true) :=
  ⟨c1_retry_ceiling_and_pause.1 7 waitActionJ uiStateAnalysis
      (Main.TaskState.new "" 0) c1StateW c1ResultW rfl,
    c1_retry_ceiling_and_pause.2 c1PausedR (Main.TaskState.new "" 0) rfl
      (by decide)⟩
